import Mathlib

/-!
Verification of the Short-Run MCMC (Langevin) EBM training scripts
(`train_data.py` / `train_toy.py`).

Scalars are modelled by `ℚ` (the scripts' tensor arithmetic is exact real
arithmetic in the model); a per-sample state tensor is a flattened `List ℚ`
and a batch is a list of such rows.  The energy function `f` is an opaque
external collaborator, so its input-gradient (what `t.autograd.grad(f(x).sum(),
[x])[0]` returns) enters the model as an explicit function argument `gradf`.
Every random draw of the scripts (`t.randperm`, `t.rand`, `t.randn`,
`t.randn_like`, the data batch from `sample_q`) enters as an explicit argument,
mirroring a fixed seeded pseudo-random stream.  The gradient-magnitude
diagnostic `r_s_t` uses an L2 norm, hence is valued in `ℝ`.
-/

/-- A single flattened sample state (one row of a batch tensor). -/
abbrev Vec := List ℚ

/-- A batch of sample states: rows of shape `[batch, channels*H*W]` flattened. -/
abbrev Batch := List Vec

/-- Row-wise shape of a batch: the list of its rows' lengths.  Two batches with
equal `rowLens` have the same tensor shape. -/
def rowLens (b : Batch) : List ℕ := b.map List.length

/-- `sample_image_set(image_set)`: take the first `batch_size` entries of a
`randperm` draw `perm` over the set's indices and gather those rows, returning
the rows together with the selected indices (train_data.py lines 93-95,
train_toy.py lines 83-85).  Python slicing `[0:batch_size]` truncates silently
when `batch_size` exceeds the permutation's length, which `List.take` mirrors. -/
def sample_image_set (image_set : Batch) (batch_size : ℕ) (perm : List ℕ) :
    Batch × List ℕ :=
  let rand_inds := perm.take batch_size
  (rand_inds.map (fun i => image_set.getD i []), rand_inds)

/-- `t.randn_like(x)`: a fresh draw with exactly the shape of `x`, with the
underlying stream `w` indexed by (row, coordinate). -/
def randn_like (x : Batch) (w : ℕ → ℕ → ℚ) : Batch :=
  x.mapIdx fun i row => row.mapIdx fun j _ => w i j

/-- Pointwise ternary zip on rows (used for the in-place Langevin update). -/
def zw3 (f : ℚ → ℚ → ℚ → ℚ) : Vec → Vec → Vec → Vec
  | a :: as, b :: bs, c :: cs => f a b c :: zw3 f as bs cs
  | _, _, _ => []

/-- Pointwise ternary zip on batches. -/
def bzw3 (f : ℚ → ℚ → ℚ → ℚ) : Batch → Batch → Batch → Batch
  | x :: xs, g :: gs, n :: ns => zw3 f x g n :: bzw3 f xs gs ns
  | _, _, _ => []

/-- One in-place Langevin update `x.data += - f_prime + epsilon * noise`
(train_data.py line 127 / train_toy.py line 113). -/
def stepState (eps : ℚ) (x g n : Batch) : Batch :=
  bzw3 (fun xv gv nv => xv - gv + eps * nv) x g n

/-- `f_prime.view(B, -1).norm(dim=1)` applied to one row: the L2 norm of the
flattened per-sample gradient. -/
noncomputable def l2norm (v : Vec) : ℝ :=
  Real.sqrt (((v.map fun a => a * a).sum : ℚ) : ℝ)

/-- `f_prime.view(B, -1).norm(dim=1).mean()`: batch mean of per-sample
gradient L2 norms (train_data.py line 128 / train_toy.py line 114). -/
noncomputable def gradMagMean (g : Batch) : ℝ :=
  (g.map l2norm).sum / (g.length : ℝ)

/-- The sequential Langevin loop `for ell in range(L)` (train_data.py lines
125-128): after `L` steps it yields the current state and the accumulated
`r_s_t` value.  `noise ell` is the `t.randn_like` stream of step `ell`. -/
noncomputable def langevinSteps (gradf : Batch → Batch) (eps : ℚ)
    (noise : ℕ → ℕ → ℕ → ℚ) (x0 : Batch) : ℕ → Batch × ℝ
  | 0 => (x0, 0)
  | l + 1 =>
      let p := langevinSteps gradf eps noise x0 l
      let g := gradf p.1
      (stepState eps p.1 g (randn_like p.1 (noise l)), p.2 + gradMagMean g)

/-- `s_t_0.data[s_t_0_inds] = x_s_t.detach().data.clone()` (train_data.py line
132): overwrite the bank rows at the listed indices, in order, with the listed
values. -/
def writeBank : Batch → List ℕ → Batch → Batch
  | bank, i :: is, v :: vs => writeBank (bank.set i v) is vs
  | bank, _, _ => bank

/-- `2 * t.rand([batch_size, ...]) - 1` (train_data.py line 111): uniform init
of the exact configured shape, from the raw uniform stream `u`. -/
def uniformInit (batch_size dim : ℕ) (u : ℕ → ℕ → ℚ) : Batch :=
  (List.range batch_size).map fun i => (List.range dim).map fun j => 2 * u i j - 1

/-- `t.randn([batch_size, ...])` (train_data.py line 114): standard-normal init
of the exact configured shape, from the raw normal stream `g0`. -/
def gaussInit (batch_size dim : ℕ) (g0 : ℕ → ℕ → ℚ) : Batch :=
  (List.range batch_size).map fun i => (List.range dim).map fun j => g0 i j

/-- All inputs of one `sample_s_t` call: the script arguments `L`, `init_type`,
`update_s_t_0`, the configured sizes, the module-level bank `s_t_0`, and every
random or external quantity the call consumes, as explicit arguments. -/
structure SamplerArgs where
  L : ℕ
  init_type : String
  update_s_t_0 : Bool
  batch_size : ℕ
  dim : ℕ
  eps : ℚ
  bank : Batch
  perm : List ℕ
  data_batch : Batch
  u : ℕ → ℕ → ℚ
  g0 : ℕ → ℕ → ℚ
  noise : ℕ → ℕ → ℕ → ℚ
  gradf : Batch → Batch

/-- The inner `sample_s_t_0()` dispatch (train_data.py lines 105-117): initial
MCMC state plus, for `persistent` only, the selected bank indices.  An invalid
`init_type` raises `RuntimeError`, modelled by `none`. -/
def sample_s_t_0 (a : SamplerArgs) : Option (Batch × Option (List ℕ)) :=
  if a.init_type = "persistent" then
    let p := sample_image_set a.bank a.batch_size a.perm
    some (p.1, some p.2)
  else if a.init_type = "data" then
    some (a.data_batch, none)
  else if a.init_type = "uniform" then
    some (uniformInit a.batch_size a.dim a.u, none)
  else if a.init_type = "gaussian" then
    some (gaussInit a.batch_size a.dim a.g0, none)
  else
    none

/-- Result of a `sample_s_t` call: the returned detached state `x_s_t`, the
returned diagnostic `r_s_t.squeeze() / L`, and the persistent bank `s_t_0`
as it stands after the call. -/
structure SampleResult where
  x : Batch
  r : ℝ
  bank : Batch

/-- `sample_s_t(L, init_type, update_s_t_0)` (train_data.py lines 103-134):
initialize, run `L` Langevin steps, write the final state back into the bank
when `init_type == 'persistent' and update_s_t_0`, and return the detached
final state together with `r_s_t.squeeze() / L`. -/
noncomputable def sample_s_t (a : SamplerArgs) : Option SampleResult :=
  match sample_s_t_0 a with
  | none => none
  | some (x0, inds?) =>
      let fin := langevinSteps a.gradf a.eps a.noise x0 a.L
      let bank' :=
        if a.init_type = "persistent" ∧ a.update_s_t_0 = true then
          match inds? with
          | some inds => writeBank a.bank inds fin.1
          | none => a.bank
        else a.bank
      some ⟨fin.1, fin.2 / (a.L : ℝ), bank'⟩

/-- The valid `init_type` strings accepted by `sample_s_t_0`. -/
def validInit (s : String) : Prop :=
  s = "persistent" ∨ s = "data" ∨ s = "uniform" ∨ s = "gaussian"

instance (s : String) : Decidable (validInit s) := by
  unfold validInit; infer_instance

/-- The indices a persistent `sample_s_t` call selects during initialization. -/
def selInds (a : SamplerArgs) : List ℕ := a.perm.take a.batch_size

/-- The initial state of a persistent `sample_s_t` call: the gathered bank rows. -/
def persistentX0 (a : SamplerArgs) : Batch :=
  (sample_image_set a.bank a.batch_size a.perm).1

/-- The final Langevin state of a call, as a function of its initial state. -/
noncomputable def chainFinal (a : SamplerArgs) (x0 : Batch) : Batch :=
  (langevinSteps a.gradf a.eps a.noise x0 a.L).1

/-- Mean of a rational-valued tensor (`tensor.mean()`); the empty mean uses
total division, as everywhere in the model. -/
def meanQ (v : List ℚ) : ℚ := v.sum / (v.length : ℚ)

/-- The per-iteration ML loss (train_data.py lines 152-155):
`d_s_t = f(x_q).mean() - f(x_s_t).mean()`, rescaled by `2 / epsilon**2`
exactly when `epsilon > 0`.  Arguments are the per-sample energies of the
positive and negative batches. -/
def computeLoss (fq fs : List ℚ) (eps : ℚ) : ℚ :=
  let d := meanQ fq - meanQ fs
  if 0 < eps then d * (2 / eps ^ 2) else d

/-- The loss as a function of the two raw batches and the energy `f`
(`f` returns one scalar per row). -/
def lossOn (f : Vec → ℚ) (xq xs : Batch) (eps : ℚ) : ℚ :=
  computeLoss (xq.map f) (xs.map f) eps

/-- Static configuration of the training loop (the `config` dict fields the
loop-level claims depend on). -/
structure LoopCfg where
  epsilon : ℚ
  lr_init : ℚ
  lr_min : ℚ
  lr_decay : ℚ
  optimizer_type : String
  log_freq : ℕ
  batch_size : ℕ

/-- The setup-time learning-rate prescaling (train_data.py lines 64-67):
when `optimizer_type == 'sgd'` and `epsilon > 0`, both `lr_init` and `lr_min`
are multiplied once by `epsilon**2 / 2` before the optimizer is constructed;
otherwise both are left unchanged.  Returns the effective `(lr_init, lr_min)`. -/
def lrPrescale (cfg : LoopCfg) : ℚ × ℚ :=
  if cfg.optimizer_type = "sgd" ∧ 0 < cfg.epsilon then
    (cfg.lr_init * (cfg.epsilon ^ 2 / 2), cfg.lr_min * (cfg.epsilon ^ 2 / 2))
  else
    (cfg.lr_init, cfg.lr_min)

/-- The per-iteration learning-rate annealing (train_data.py lines 166-167):
every parameter group's rate becomes `max(lr_min, lr * lr_decay)`. -/
def annealLR (lr_min lr_decay : ℚ) (lrs : List ℚ) : List ℚ :=
  lrs.map fun l => max lr_min (l * lr_decay)

/-- The logging condition of iteration `i` (0-based), from train_data.py line
170: `(i + 1) == 1 or (i + 1) % log_freq == 0`. -/
def shouldLog (log_freq i : ℕ) : Bool :=
  (i + 1 == 1) || ((i + 1) % log_freq == 0)

/-- What one training iteration observes from the external collaborators: the
energies `f(x_q)` and `f(x_s_t)` row by row, and the sampler diagnostic
`r_s_t`.  (The network's weights evolve inside `f`; only these observations
enter the loop-level state.) -/
structure IterData where
  fq : List ℚ
  fs : List ℚ
  r : ℝ

/-- Loop-level mutable state after some number of iterations: the optimizer's
parameter-group learning rates, the two diagnostic records, and the (1-based)
iterations at which the logging branch fired. -/
structure LoopState where
  lrs : List ℚ
  d_rec : List ℚ
  r_rec : List ℝ
  logged : List ℕ

/-- One iteration of the training loop body (train_data.py lines 146-178):
compute `d_s_t`, append both diagnostics at index `i`, anneal every
parameter group's learning rate unconditionally, and record whether the
logging branch fired. -/
def trainIter (cfg : LoopCfg) (dat : IterData) (i : ℕ) (s : LoopState) :
    LoopState :=
  let d := computeLoss dat.fq dat.fs cfg.epsilon
  { lrs := annealLR (lrPrescale cfg).2 cfg.lr_decay s.lrs
    d_rec := s.d_rec ++ [d]
    r_rec := s.r_rec ++ [dat.r]
    logged := if shouldLog cfg.log_freq i then s.logged ++ [i + 1] else s.logged }

/-- Loop state before the first iteration: the optimizer is constructed with
one parameter group at the (already prescaled) `lr_init` (train_data.py line
68), and the records are empty. -/
def initLoopState (cfg : LoopCfg) : LoopState :=
  ⟨[(lrPrescale cfg).1], [], [], []⟩

/-- The training loop after `k` iterations, over an observation stream `obs`. -/
def trainRun (cfg : LoopCfg) (obs : ℕ → IterData) : ℕ → LoopState
  | 0 => initLoopState cfg
  | k + 1 => trainIter cfg (obs k) k (trainRun cfg obs k)

/-- Modelled from the spec: the seeded pseudo-random stream behind
`t.manual_seed(config['seed'])` (train_data.py line 48) lives outside this
repository; per the spec every random draw is a deterministic function of the
seed, modelled by a linear congruential generator. -/
def lcg (s : ℕ) : ℕ := (1103515245 * s + 12345) % 2147483648

/-- Modelled from the spec: draw number `i` of the seeded stream, as a rational
in `[0, 1)`. -/
def streamVal (seed i : ℕ) : ℚ :=
  ((lcg^[i + 1] seed % 1000 : ℕ) : ℚ) / 1000

/-- Modelled from the spec: the whole per-iteration observation stream
(energies of both batches and the sampler diagnostic) as a deterministic
function of the seed, since every draw derives from the seeded stream. -/
def obsFromSeed (seed bs : ℕ) : ℕ → IterData := fun i =>
  ⟨(List.range bs).map fun j => streamVal seed (2 * bs * i + j),
   (List.range bs).map fun j => streamVal seed (2 * bs * i + bs + j),
   ((streamVal seed (2 * bs * i + 2 * bs) : ℚ) : ℝ)⟩

/-- A full run of the training program: configuration plus seed determine the
observation stream and hence the whole loop state. -/
def fullRun (cfg : LoopCfg) (seed n : ℕ) : LoopState :=
  trainRun cfg (obsFromSeed seed cfg.batch_size) n

/-! Helper lemmas about the sampler's building blocks. -/

theorem zw3_length (f : ℚ → ℚ → ℚ → ℚ) :
    ∀ a b c : Vec, (zw3 f a b c).length = min a.length (min b.length c.length)
  | [], _, _ => by simp [zw3]
  | _ :: _, [], _ => by simp [zw3]
  | _ :: _, _ :: _, [] => by simp [zw3]
  | a :: as, b :: bs, c :: cs => by
      have := zw3_length f as bs cs
      simp only [zw3, List.length_cons, this]
      omega

theorem bzw3_length (f : ℚ → ℚ → ℚ → ℚ) :
    ∀ x g n : Batch, (bzw3 f x g n).length = min x.length (min g.length n.length)
  | [], _, _ => by simp [bzw3]
  | _ :: _, [], _ => by simp [bzw3]
  | _ :: _, _ :: _, [] => by simp [bzw3]
  | x :: xs, g :: gs, n :: ns => by
      have := bzw3_length f xs gs ns
      simp only [bzw3, List.length_cons, this]
      omega

theorem randn_like_length (x : Batch) (w : ℕ → ℕ → ℚ) :
    (randn_like x w).length = x.length := by
  simp [randn_like]

theorem stepState_length (eps : ℚ) (x g n : Batch)
    (hg : g.length = x.length) (hn : n.length = x.length) :
    (stepState eps x g n).length = x.length := by
  simp [stepState, bzw3_length, hg, hn]

theorem langevinSteps_length (gradf : Batch → Batch) (eps : ℚ)
    (noise : ℕ → ℕ → ℕ → ℚ) (x0 : Batch)
    (hg : ∀ y, (gradf y).length = y.length) :
    ∀ l, (langevinSteps gradf eps noise x0 l).1.length = x0.length
  | 0 => rfl
  | l + 1 => by
      have ih := langevinSteps_length gradf eps noise x0 hg l
      simp only [langevinSteps]
      rw [stepState_length _ _ _ _ (hg _) (randn_like_length _ _)]
      exact ih

theorem rowLens_mapIdx (f : ℕ → Vec → Vec)
    (h : ∀ i r, (f i r).length = r.length) :
    ∀ x : Batch, rowLens (x.mapIdx f) = rowLens x := by
  intro x
  induction x generalizing f with
  | nil => simp [rowLens]
  | cons a as ih =>
      simp only [rowLens, List.mapIdx_cons, List.map_cons, h 0 a]
      have := ih (fun i => f (i + 1)) (fun i r => h (i + 1) r)
      simpa [rowLens] using this

theorem rowLens_randn_like (x : Batch) (w : ℕ → ℕ → ℚ) :
    rowLens (randn_like x w) = rowLens x := by
  apply rowLens_mapIdx
  intro i r
  simp

theorem rowLens_zw3_aux (f : ℚ → ℚ → ℚ → ℚ) (a b c : Vec)
    (hb : b.length = a.length) (hc : c.length = a.length) :
    (zw3 f a b c).length = a.length := by
  simp [zw3_length, hb, hc]

theorem rowLens_bzw3 (f : ℚ → ℚ → ℚ → ℚ) :
    ∀ x g n : Batch, rowLens g = rowLens x → rowLens n = rowLens x →
      rowLens (bzw3 f x g n) = rowLens x
  | [], g, n, hg, hn => by
      simp only [rowLens, List.map_eq_nil_iff] at hg hn
      simp [hg, hn, bzw3, rowLens]
  | x :: xs, g, n, hg, hn => by
      match g, n with
      | gr :: gs, nr :: ns =>
          simp only [rowLens, List.map_cons, List.cons.injEq] at hg hn
          have := rowLens_bzw3 f xs gs ns hg.2 hn.2
          simp only [bzw3, rowLens, List.map_cons, List.cons.injEq]
          exact ⟨rowLens_zw3_aux f x gr nr hg.1 hn.1, this⟩

theorem rowLens_stepState (eps : ℚ) (x g n : Batch)
    (hg : rowLens g = rowLens x) (hn : rowLens n = rowLens x) :
    rowLens (stepState eps x g n) = rowLens x :=
  rowLens_bzw3 _ x g n hg hn

theorem rowLens_langevinSteps (gradf : Batch → Batch) (eps : ℚ)
    (noise : ℕ → ℕ → ℕ → ℚ) (x0 : Batch)
    (hg : ∀ y, rowLens (gradf y) = rowLens y) :
    ∀ l, rowLens (langevinSteps gradf eps noise x0 l).1 = rowLens x0
  | 0 => rfl
  | l + 1 => by
      have ih := rowLens_langevinSteps gradf eps noise x0 hg l
      simp only [langevinSteps]
      rw [rowLens_stepState _ _ _ _ (hg _) (rowLens_randn_like _ _)]
      exact ih

theorem langevinSteps_r_sum (gradf : Batch → Batch) (eps : ℚ)
    (noise : ℕ → ℕ → ℕ → ℚ) (x0 : Batch) :
    ∀ l, (langevinSteps gradf eps noise x0 l).2 =
      ((List.range l).map fun j =>
        gradMagMean (gradf (langevinSteps gradf eps noise x0 j).1)).sum
  | 0 => by simp [langevinSteps]
  | l + 1 => by
      have ih := langevinSteps_r_sum gradf eps noise x0 l
      simp only [langevinSteps, List.range_succ, List.map_append, List.sum_append,
        List.map_cons, List.map_nil, List.sum_cons, List.sum_nil, add_zero]
      rw [ih]

theorem writeBank_getElem?_of_not_mem :
    ∀ (inds : List ℕ) (vals bank : Batch) (j : ℕ), j ∉ inds →
      (writeBank bank inds vals)[j]? = bank[j]?
  | [], vals, bank, j, _ => by cases vals <;> rfl
  | _ :: _, [], bank, j, _ => rfl
  | i :: is, v :: vs, bank, j, hj => by
      have hji : j ≠ i := fun h => hj (h ▸ List.mem_cons_self i is)
      have hjs : j ∉ is := fun h => hj (List.mem_cons_of_mem i h)
      show (writeBank (bank.set i v) is vs)[j]? = bank[j]?
      rw [writeBank_getElem?_of_not_mem is vs _ j hjs,
        List.getElem?_set_ne (Ne.symm hji)]

theorem writeBank_getElem?_sel :
    ∀ (inds : List ℕ) (vals bank : Batch) (k : ℕ), inds.Nodup →
      (∀ i ∈ inds, i < bank.length) → inds.length ≤ vals.length →
      k < inds.length →
      (writeBank bank inds vals)[inds.getD k 0]? = vals[k]?
  | i :: is, v :: vs, bank, 0, hnd, hlt, _, _ => by
      have hi : i ∉ is := (List.nodup_cons.mp hnd).1
      show (writeBank (bank.set i v) is vs)[(i :: is).getD 0 0]? = (v :: vs)[0]?
      rw [List.getD_cons_zero, List.getElem?_cons_zero,
        writeBank_getElem?_of_not_mem is vs _ i hi,
        List.getElem?_set_self (by simpa using hlt i (List.mem_cons_self i is))]
  | i :: is, v :: vs, bank, k + 1, hnd, hlt, hlen, hk => by
      show (writeBank (bank.set i v) is vs)[(i :: is).getD (k + 1) 0]? = (v :: vs)[k + 1]?
      rw [List.getD_cons_succ, List.getElem?_cons_succ]
      exact writeBank_getElem?_sel is vs (bank.set i v) k (List.nodup_cons.mp hnd).2
        (fun j hj => by simpa using hlt j (List.mem_cons_of_mem i hj))
        (by simpa using Nat.succ_le_succ_iff.mp hlen)
        (by simpa using Nat.succ_lt_succ_iff.mp hk)

theorem selInds_length (a : SamplerArgs)
    (hperm : a.perm.Perm (List.range a.bank.length))
    (hbs : a.batch_size ≤ a.bank.length) :
    (selInds a).length = a.batch_size := by
  have hpl : a.perm.length = a.bank.length := by
    simpa using hperm.length_eq
  simp only [selInds, List.length_take, hpl]
  omega

theorem selInds_nodup (a : SamplerArgs)
    (hperm : a.perm.Perm (List.range a.bank.length)) :
    (selInds a).Nodup :=
  (List.take_sublist _ _).nodup (hperm.nodup_iff.mpr (List.nodup_range _))

theorem selInds_lt (a : SamplerArgs)
    (hperm : a.perm.Perm (List.range a.bank.length)) :
    ∀ i ∈ selInds a, i < a.bank.length := by
  intro i hi
  have hmem : i ∈ a.perm := List.mem_of_mem_take hi
  exact List.mem_range.mp (hperm.mem_iff.mp hmem)

theorem persistentX0_length (a : SamplerArgs) :
    (persistentX0 a).length = (selInds a).length := by
  simp [persistentX0, sample_image_set, selInds]

theorem chainFinal_length (a : SamplerArgs) (x0 : Batch)
    (hg : ∀ y, (a.gradf y).length = y.length) :
    (chainFinal a x0).length = x0.length :=
  langevinSteps_length a.gradf a.eps a.noise x0 hg a.L

theorem sample_s_t_0_persistent (a : SamplerArgs)
    (hinit : a.init_type = "persistent") :
    sample_s_t_0 a = some (persistentX0 a, some (selInds a)) := by
  simp [sample_s_t_0, hinit, persistentX0, selInds, sample_image_set]

theorem sample_s_t_persistent_eq (a : SamplerArgs)
    (hinit : a.init_type = "persistent") (hupd : a.update_s_t_0 = true) :
    sample_s_t a =
      some ⟨chainFinal a (persistentX0 a),
        (langevinSteps a.gradf a.eps a.noise (persistentX0 a) a.L).2 / (a.L : ℝ),
        writeBank a.bank (selInds a) (chainFinal a (persistentX0 a))⟩ := by
  rw [sample_s_t, sample_s_t_0_persistent a hinit]
  simp [hinit, hupd, chainFinal]

/-- C1: for a persistent-init `sample_s_t` call with `update_s_t_0 = True`, the
bank after the call holds, at exactly the indices selected during
initialization, the corresponding rows of the returned final (detached) state,
and is unchanged at every other index. -/
theorem c1_persistent_bank_writeback (a : SamplerArgs)
    (hinit : a.init_type = "persistent") (hupd : a.update_s_t_0 = true)
    (hperm : a.perm.Perm (List.range a.bank.length))
    (hbs : a.batch_size ≤ a.bank.length)
    (hg : ∀ y, (a.gradf y).length = y.length) :
    (sample_s_t a).map SampleResult.x = some (chainFinal a (persistentX0 a)) ∧
    (sample_s_t a).map SampleResult.bank =
      some (writeBank a.bank (selInds a) (chainFinal a (persistentX0 a))) ∧
    (∀ k, k < a.batch_size →
      (writeBank a.bank (selInds a)
          (chainFinal a (persistentX0 a)))[(selInds a).getD k 0]? =
        (chainFinal a (persistentX0 a))[k]?) ∧
    (∀ j, j ∉ selInds a →
      (writeBank a.bank (selInds a) (chainFinal a (persistentX0 a)))[j]? =
        a.bank[j]?) := by
  have hs := sample_s_t_persistent_eq a hinit hupd
  refine ⟨by rw [hs]; rfl, by rw [hs]; rfl, ?_, ?_⟩
  · intro k hk
    have hlen : (selInds a).length = a.batch_size := selInds_length a hperm hbs
    have hvals : (selInds a).length ≤ (chainFinal a (persistentX0 a)).length := by
      rw [chainFinal_length a _ hg, persistentX0_length a]
    exact writeBank_getElem?_sel (selInds a) (chainFinal a (persistentX0 a)) a.bank k
      (selInds_nodup a hperm) (selInds_lt a hperm) hvals (by omega)
  · intro j hj
    exact writeBank_getElem?_of_not_mem (selInds a) (chainFinal a (persistentX0 a))
      a.bank j hj

/-- Concrete arguments exercising the persistent write-back path. -/
def aC1 : SamplerArgs where
  L := 1
  init_type := "persistent"
  update_s_t_0 := true
  batch_size := 1
  dim := 1
  eps := 0
  bank := [[1], [2]]
  perm := [0, 1]
  data_batch := []
  u := fun _ _ => 0
  g0 := fun _ _ => 0
  noise := fun _ _ _ => 0
  gradf := fun y => y

/-- Witness for C1 at the concrete arguments `aC1`. -/
theorem c1_persistent_bank_writeback_witness :
    (sample_s_t aC1).map SampleResult.x = some (chainFinal aC1 (persistentX0 aC1)) ∧
    (sample_s_t aC1).map SampleResult.bank =
      some (writeBank aC1.bank (selInds aC1) (chainFinal aC1 (persistentX0 aC1))) ∧
    (∀ k, k < aC1.batch_size →
      (writeBank aC1.bank (selInds aC1)
          (chainFinal aC1 (persistentX0 aC1)))[(selInds aC1).getD k 0]? =
        (chainFinal aC1 (persistentX0 aC1))[k]?) ∧
    (∀ j, j ∉ selInds aC1 →
      (writeBank aC1.bank (selInds aC1) (chainFinal aC1 (persistentX0 aC1)))[j]? =
        aC1.bank[j]?) :=
  c1_persistent_bank_writeback aC1 rfl rfl (by decide) (by decide) (fun y => rfl)

theorem sample_s_t_0_data (a : SamplerArgs) (h : a.init_type = "data") :
    sample_s_t_0 a = some (a.data_batch, none) := by
  simp [sample_s_t_0, h]

theorem sample_s_t_0_uniform (a : SamplerArgs) (h : a.init_type = "uniform") :
    sample_s_t_0 a = some (uniformInit a.batch_size a.dim a.u, none) := by
  simp [sample_s_t_0, h]

theorem sample_s_t_0_gaussian (a : SamplerArgs) (h : a.init_type = "gaussian") :
    sample_s_t_0 a = some (gaussInit a.batch_size a.dim a.g0, none) := by
  simp [sample_s_t_0, h]

theorem sample_s_t_x_eq (a : SamplerArgs) (x0 : Batch) (inds? : Option (List ℕ))
    (h0 : sample_s_t_0 a = some (x0, inds?)) :
    (sample_s_t a).map SampleResult.x =
      some ((langevinSteps a.gradf a.eps a.noise x0 a.L).1) := by
  rw [sample_s_t, h0]
  rfl

theorem sample_s_t_r_eq (a : SamplerArgs) (x0 : Batch) (inds? : Option (List ℕ))
    (h0 : sample_s_t_0 a = some (x0, inds?)) :
    (sample_s_t a).map SampleResult.r =
      some ((langevinSteps a.gradf a.eps a.noise x0 a.L).2 / (a.L : ℝ)) := by
  rw [sample_s_t, h0]
  rfl

theorem sample_s_t_bank_of_ne (a : SamplerArgs)
    (hne : ¬(a.init_type = "persistent" ∧ a.update_s_t_0 = true))
    (x0 : Batch) (inds? : Option (List ℕ))
    (h0 : sample_s_t_0 a = some (x0, inds?)) :
    (sample_s_t a).map SampleResult.bank = some a.bank := by
  rw [sample_s_t, h0]
  simp [hne]

/-- C2 counterexample input: a persistent-init call whose requested batch size
(3) exceeds the bank capacity (2). -/
def aC2 : SamplerArgs where
  L := 0
  init_type := "persistent"
  update_s_t_0 := true
  batch_size := 3
  dim := 1
  eps := 0
  bank := [[1], [2]]
  perm := [0, 1]
  data_batch := []
  u := fun _ _ => 0
  g0 := fun _ _ => 0
  noise := fun _ _ _ => 0
  gradf := fun y => y

/-- C2 counterexample: requesting `batch_size = 3` from a persistent bank of
capacity 2 does not fail: `sample_s_t` returns successfully, silently holding
only 2 samples. -/
theorem c2_no_boundary_error_cex :
    aC2.batch_size = 3 ∧ aC2.bank.length = 2 ∧
    (sample_s_t aC2).map (fun res => res.x.length) = some 2 := by
  refine ⟨rfl, rfl, ?_⟩
  rw [sample_s_t_persistent_eq aC2 rfl rfl]
  rfl

/-- C2 (amended): index selection under persistent init is without
replacement, but a `batch_size` above the bank capacity is silently truncated:
a `randperm`-based selection over a bank of size `N` always yields
`min batch_size N` pairwise-distinct indices in `[0, N)`, and the gathered
batch has exactly that many rows. -/
theorem c2_index_selection (image_set : Batch) (bs : ℕ) (perm : List ℕ)
    (hperm : perm.Perm (List.range image_set.length)) :
    (sample_image_set image_set bs perm).2 = perm.take bs ∧
    (sample_image_set image_set bs perm).2.length = min bs image_set.length ∧
    (sample_image_set image_set bs perm).2.Nodup ∧
    (∀ i ∈ (sample_image_set image_set bs perm).2, i < image_set.length) ∧
    (sample_image_set image_set bs perm).1.length =
      (sample_image_set image_set bs perm).2.length := by
  have hpl : perm.length = image_set.length := by simpa using hperm.length_eq
  refine ⟨rfl, ?_, ?_, ?_, ?_⟩
  · simp [sample_image_set, hpl]
  · exact (List.take_sublist _ _).nodup (hperm.nodup_iff.mpr (List.nodup_range _))
  · intro i hi
    have hmem : i ∈ perm := List.mem_of_mem_take hi
    exact List.mem_range.mp (hperm.mem_iff.mp hmem)
  · simp [sample_image_set]

/-- Witness for C2's amended statement at a concrete bank and permutation. -/
theorem c2_index_selection_witness :
    (sample_image_set [[(1 : ℚ)], [2]] 1 [1, 0]).2 = [1, 0].take 1 ∧
    (sample_image_set [[(1 : ℚ)], [2]] 1 [1, 0]).2.length = min 1 2 ∧
    (sample_image_set [[(1 : ℚ)], [2]] 1 [1, 0]).2.Nodup ∧
    (∀ i ∈ (sample_image_set [[(1 : ℚ)], [2]] 1 [1, 0]).2, i < 2) ∧
    (sample_image_set [[(1 : ℚ)], [2]] 1 [1, 0]).1.length =
      (sample_image_set [[(1 : ℚ)], [2]] 1 [1, 0]).2.length :=
  c2_index_selection [[(1 : ℚ)], [2]] 1 [1, 0] (by decide)

theorem rowLens_uniformInit (B d : ℕ) (u : ℕ → ℕ → ℚ) :
    rowLens (uniformInit B d u) = List.replicate B d := by
  simp [rowLens, uniformInit, List.map_map, Function.comp_def]

theorem rowLens_gaussInit (B d : ℕ) (g0 : ℕ → ℕ → ℚ) :
    rowLens (gaussInit B d g0) = List.replicate B d := by
  simp [rowLens, gaussInit, List.map_map, Function.comp_def]

/-- C5: the persistent bank is mutated only by the persistent write-back path:
a call with `init_type` in {data, uniform, gaussian} leaves the bank unchanged;
a call with `update_s_t_0 = False` (any valid init, including long-run
diagnostic sampling) leaves the bank unchanged; and uniform/gaussian init
returns a state of exactly the configured `[batch_size, dim]` shape. -/
theorem c5_bank_isolation (a : SamplerArgs) :
    (a.init_type = "data" ∨ a.init_type = "uniform" ∨ a.init_type = "gaussian" →
      (sample_s_t a).map SampleResult.bank = some a.bank) ∧
    (validInit a.init_type → a.update_s_t_0 = false →
      (sample_s_t a).map SampleResult.bank = some a.bank) ∧
    ((a.init_type = "uniform" ∨ a.init_type = "gaussian") →
      (∀ y, rowLens (a.gradf y) = rowLens y) →
      (sample_s_t a).map (fun res => rowLens res.x) =
        some (List.replicate a.batch_size a.dim)) := by
  refine ⟨?_, ?_, ?_⟩
  · rintro (h | h | h)
    · exact sample_s_t_bank_of_ne a (by simp [h]) _ _ (sample_s_t_0_data a h)
    · exact sample_s_t_bank_of_ne a (by simp [h]) _ _ (sample_s_t_0_uniform a h)
    · exact sample_s_t_bank_of_ne a (by simp [h]) _ _ (sample_s_t_0_gaussian a h)
  · rintro (h | h | h | h) hupd
    · exact sample_s_t_bank_of_ne a (by simp [hupd]) _ _ (sample_s_t_0_persistent a h)
    · exact sample_s_t_bank_of_ne a (by simp [hupd]) _ _ (sample_s_t_0_data a h)
    · exact sample_s_t_bank_of_ne a (by simp [hupd]) _ _ (sample_s_t_0_uniform a h)
    · exact sample_s_t_bank_of_ne a (by simp [hupd]) _ _ (sample_s_t_0_gaussian a h)
  · rintro (h | h) hg
    · have hx := sample_s_t_x_eq a _ _ (sample_s_t_0_uniform a h)
      have hrl := rowLens_langevinSteps a.gradf a.eps a.noise
        (uniformInit a.batch_size a.dim a.u) hg a.L
      rw [show (fun res => rowLens res.x) =
        (fun b => rowLens b) ∘ SampleResult.x from rfl, ← Option.map_map, hx]
      simp only [Option.map_some']
      rw [hrl, rowLens_uniformInit]
    · have hx := sample_s_t_x_eq a _ _ (sample_s_t_0_gaussian a h)
      have hrl := rowLens_langevinSteps a.gradf a.eps a.noise
        (gaussInit a.batch_size a.dim a.g0) hg a.L
      rw [show (fun res => rowLens res.x) =
        (fun b => rowLens b) ∘ SampleResult.x from rfl, ← Option.map_map, hx]
      simp only [Option.map_some']
      rw [hrl, rowLens_gaussInit]

/-- Concrete data-init call (bank untouched even with the update flag set). -/
def aC5a : SamplerArgs where
  L := 1
  init_type := "data"
  update_s_t_0 := true
  batch_size := 1
  dim := 1
  eps := 0
  bank := [[1], [2]]
  perm := [0, 1]
  data_batch := [[5]]
  u := fun _ _ => 0
  g0 := fun _ _ => 0
  noise := fun _ _ _ => 0
  gradf := fun y => y

/-- Concrete persistent-init call with the update flag cleared. -/
def aC5b : SamplerArgs where
  L := 1
  init_type := "persistent"
  update_s_t_0 := false
  batch_size := 1
  dim := 1
  eps := 0
  bank := [[1], [2]]
  perm := [0, 1]
  data_batch := []
  u := fun _ _ => 0
  g0 := fun _ _ => 0
  noise := fun _ _ _ => 0
  gradf := fun y => y

/-- Concrete uniform-init call with a shape-preserving gradient. -/
def aC5c : SamplerArgs where
  L := 2
  init_type := "uniform"
  update_s_t_0 := true
  batch_size := 2
  dim := 3
  eps := 1
  bank := [[1], [2]]
  perm := [0, 1]
  data_batch := []
  u := fun _ _ => 0
  g0 := fun _ _ => 0
  noise := fun _ _ _ => 0
  gradf := fun y => y

/-- Witness for C5 at concrete data-, persistent- and uniform-init calls. -/
theorem c5_bank_isolation_witness :
    (sample_s_t aC5a).map SampleResult.bank = some aC5a.bank ∧
    (sample_s_t aC5b).map SampleResult.bank = some aC5b.bank ∧
    (sample_s_t aC5c).map (fun res => rowLens res.x) =
      some (List.replicate aC5c.batch_size aC5c.dim) :=
  ⟨(c5_bank_isolation aC5a).1 (Or.inl rfl),
   (c5_bank_isolation aC5b).2.1 (by decide) rfl,
   (c5_bank_isolation aC5c).2.2 (Or.inl rfl) (fun y => rfl)⟩

/-- C3: for a call with `L ≥ 1` and a valid `init_type`, the state after step
`l+1` is the state after step `l` minus the gradient of the summed energy at
that state plus `epsilon` times a fresh same-shaped Gaussian draw
(`stepState`); the accumulated diagnostic is the sum over the `L` steps of the
batch-mean per-sample gradient L2 norm; the second return value is that sum
divided by `L`; and the first return value is the final (detached) state. -/
theorem c3_langevin_dynamics (a : SamplerArgs) (x0 : Batch)
    (inds? : Option (List ℕ)) (h0 : sample_s_t_0 a = some (x0, inds?))
    (_hL : 1 ≤ a.L) :
    (∀ l, l < a.L →
      (langevinSteps a.gradf a.eps a.noise x0 (l + 1)).1 =
        stepState a.eps (langevinSteps a.gradf a.eps a.noise x0 l).1
          (a.gradf (langevinSteps a.gradf a.eps a.noise x0 l).1)
          (randn_like (langevinSteps a.gradf a.eps a.noise x0 l).1 (a.noise l)) ∧
      (langevinSteps a.gradf a.eps a.noise x0 (l + 1)).2 =
        (langevinSteps a.gradf a.eps a.noise x0 l).2 +
          gradMagMean (a.gradf (langevinSteps a.gradf a.eps a.noise x0 l).1)) ∧
    (langevinSteps a.gradf a.eps a.noise x0 a.L).2 =
      ((List.range a.L).map fun j =>
        gradMagMean (a.gradf (langevinSteps a.gradf a.eps a.noise x0 j).1)).sum ∧
    (sample_s_t a).map SampleResult.x =
      some ((langevinSteps a.gradf a.eps a.noise x0 a.L).1) ∧
    (sample_s_t a).map SampleResult.r =
      some (((List.range a.L).map fun j =>
        gradMagMean (a.gradf (langevinSteps a.gradf a.eps a.noise x0 j).1)).sum /
          (a.L : ℝ)) := by
  refine ⟨fun l _ => ⟨rfl, rfl⟩, langevinSteps_r_sum a.gradf a.eps a.noise x0 a.L,
    sample_s_t_x_eq a x0 inds? h0, ?_⟩
  rw [sample_s_t_r_eq a x0 inds? h0, langevinSteps_r_sum a.gradf a.eps a.noise x0 a.L]

/-- Concrete uniform-init call with one Langevin step. -/
def aC3 : SamplerArgs where
  L := 1
  init_type := "uniform"
  update_s_t_0 := true
  batch_size := 1
  dim := 1
  eps := 1
  bank := []
  perm := []
  data_batch := []
  u := fun _ _ => 0
  g0 := fun _ _ => 0
  noise := fun _ _ _ => 0
  gradf := fun y => y

/-- Witness for C3 at the concrete arguments `aC3`. -/
theorem c3_langevin_dynamics_witness :
    (∀ l, l < aC3.L →
      (langevinSteps aC3.gradf aC3.eps aC3.noise
          (uniformInit aC3.batch_size aC3.dim aC3.u) (l + 1)).1 =
        stepState aC3.eps
          (langevinSteps aC3.gradf aC3.eps aC3.noise
            (uniformInit aC3.batch_size aC3.dim aC3.u) l).1
          (aC3.gradf (langevinSteps aC3.gradf aC3.eps aC3.noise
            (uniformInit aC3.batch_size aC3.dim aC3.u) l).1)
          (randn_like (langevinSteps aC3.gradf aC3.eps aC3.noise
            (uniformInit aC3.batch_size aC3.dim aC3.u) l).1 (aC3.noise l)) ∧
      (langevinSteps aC3.gradf aC3.eps aC3.noise
          (uniformInit aC3.batch_size aC3.dim aC3.u) (l + 1)).2 =
        (langevinSteps aC3.gradf aC3.eps aC3.noise
          (uniformInit aC3.batch_size aC3.dim aC3.u) l).2 +
          gradMagMean (aC3.gradf (langevinSteps aC3.gradf aC3.eps aC3.noise
            (uniformInit aC3.batch_size aC3.dim aC3.u) l).1)) ∧
    (langevinSteps aC3.gradf aC3.eps aC3.noise
        (uniformInit aC3.batch_size aC3.dim aC3.u) aC3.L).2 =
      ((List.range aC3.L).map fun j =>
        gradMagMean (aC3.gradf (langevinSteps aC3.gradf aC3.eps aC3.noise
          (uniformInit aC3.batch_size aC3.dim aC3.u) j).1)).sum ∧
    (sample_s_t aC3).map SampleResult.x =
      some ((langevinSteps aC3.gradf aC3.eps aC3.noise
        (uniformInit aC3.batch_size aC3.dim aC3.u) aC3.L).1) ∧
    (sample_s_t aC3).map SampleResult.r =
      some (((List.range aC3.L).map fun j =>
        gradMagMean (aC3.gradf (langevinSteps aC3.gradf aC3.eps aC3.noise
          (uniformInit aC3.batch_size aC3.dim aC3.u) j).1)).sum / (aC3.L : ℝ)) :=
  c3_langevin_dynamics aC3 (uniformInit aC3.batch_size aC3.dim aC3.u) none rfl
    (by decide)

/-- C10: `sample_s_t` does not validate `L`; with `L = 0` and a valid
`init_type` the Langevin loop body never runs, the call returns the unchanged
initial state, the diagnostic is the unguarded division `0 / 0` of the zero
accumulator by the step count, no error is raised, and under persistent init
with the update flag set the unchanged initial state is written back to the
bank. -/
theorem c10_zero_steps_division (a : SamplerArgs) (x0 : Batch)
    (inds? : Option (List ℕ)) (h0 : sample_s_t_0 a = some (x0, inds?))
    (hL : a.L = 0) :
    (sample_s_t a).map SampleResult.x = some x0 ∧
    (sample_s_t a).map SampleResult.r = some ((0 : ℝ) / ((0 : ℕ) : ℝ)) ∧
    (a.init_type = "persistent" → a.update_s_t_0 = true →
      (sample_s_t a).map SampleResult.bank =
        some (writeBank a.bank (selInds a) x0)) := by
  refine ⟨?_, ?_, ?_⟩
  · rw [sample_s_t_x_eq a x0 inds? h0, hL]
    rfl
  · rw [sample_s_t_r_eq a x0 inds? h0, hL]
    rfl
  · intro hi hu
    have h2 : persistentX0 a = x0 ∧ (some (selInds a) : Option (List ℕ)) = inds? := by
      have h3 := (sample_s_t_0_persistent a hi).symm.trans h0
      simpa using h3
    rw [sample_s_t_persistent_eq a hi hu]
    simp only [Option.map_some']
    rw [show chainFinal a (persistentX0 a) =
      (langevinSteps a.gradf a.eps a.noise (persistentX0 a) a.L).1 from rfl, hL]
    rw [show (langevinSteps a.gradf a.eps a.noise (persistentX0 a) 0).1 =
      persistentX0 a from rfl, h2.1]

/-- Concrete persistent-init call with `L = 0`. -/
def aC10 : SamplerArgs where
  L := 0
  init_type := "persistent"
  update_s_t_0 := true
  batch_size := 1
  dim := 1
  eps := 0
  bank := [[1], [2]]
  perm := [1, 0]
  data_batch := []
  u := fun _ _ => 0
  g0 := fun _ _ => 0
  noise := fun _ _ _ => 0
  gradf := fun y => y

/-- Witness for C10 at the concrete arguments `aC10`. -/
theorem c10_zero_steps_division_witness :
    (sample_s_t aC10).map SampleResult.x = some (persistentX0 aC10) ∧
    (sample_s_t aC10).map SampleResult.r = some ((0 : ℝ) / ((0 : ℕ) : ℝ)) ∧
    (aC10.init_type = "persistent" → aC10.update_s_t_0 = true →
      (sample_s_t aC10).map SampleResult.bank =
        some (writeBank aC10.bank (selInds aC10) (persistentX0 aC10))) :=
  c10_zero_steps_division aC10 (persistentX0 aC10) (some (selInds aC10)) rfl rfl

theorem trainRun_d_rec_length (cfg : LoopCfg) (obs : ℕ → IterData) :
    ∀ n, (trainRun cfg obs n).d_rec.length = n
  | 0 => rfl
  | n + 1 => by
      simp [trainRun, trainIter, trainRun_d_rec_length cfg obs n]

theorem trainRun_d_rec_get? (cfg : LoopCfg) (obs : ℕ → IterData) :
    ∀ n i, i < n → (trainRun cfg obs n).d_rec[i]? =
      some (computeLoss (obs i).fq (obs i).fs cfg.epsilon)
  | n + 1, i, h => by
      by_cases hi : i < n
      · show ((trainRun cfg obs n).d_rec ++ _)[i]? = _
        rw [List.getElem?_append_left (by rw [trainRun_d_rec_length]; exact hi)]
        exact trainRun_d_rec_get? cfg obs n i hi
      · have hn : i = n := by omega
        subst hn
        show ((trainRun cfg obs i).d_rec ++
          [computeLoss (obs i).fq (obs i).fs cfg.epsilon])[i]? = _
        rw [List.getElem?_append_right (by simp [trainRun_d_rec_length])]
        rw [trainRun_d_rec_length]
        simp

/-- C4: the loss recorded at every training iteration equals
`mean(f(x_q)) - mean(f(x_s_t))` scaled by `2 / epsilon^2` when `epsilon > 0`,
and equals the unscaled difference when `epsilon ≤ 0`. -/
theorem c4_loss_scaling (cfg : LoopCfg) (obs : ℕ → IterData) (n i : ℕ)
    (h : i < n) :
    (trainRun cfg obs n).d_rec[i]? =
      some (if 0 < cfg.epsilon
        then (meanQ (obs i).fq - meanQ (obs i).fs) * (2 / cfg.epsilon ^ 2)
        else meanQ (obs i).fq - meanQ (obs i).fs) := by
  rw [trainRun_d_rec_get? cfg obs n i h]
  rfl

/-- Concrete loop configuration for the loop-level witnesses. -/
def cfgW : LoopCfg where
  epsilon := 1
  lr_init := 4
  lr_min := 2
  lr_decay := 1 / 10
  optimizer_type := "sgd"
  log_freq := 5
  batch_size := 1

/-- Concrete loop configuration without SGD prescaling. -/
def cfgW2 : LoopCfg where
  epsilon := 0
  lr_init := 4
  lr_min := 2
  lr_decay := 1 / 10
  optimizer_type := "adam"
  log_freq := 5
  batch_size := 1

/-- Concrete observation stream for the loop-level witnesses. -/
def obsW : ℕ → IterData := fun _ => ⟨[1], [0], 0⟩

/-- Witness for C4 at a concrete configuration, stream and iteration. -/
theorem c4_loss_scaling_witness :
    (trainRun cfgW obsW 1).d_rec[0]? =
      some (if 0 < cfgW.epsilon
        then (meanQ (obsW 0).fq - meanQ (obsW 0).fs) * (2 / cfgW.epsilon ^ 2)
        else meanQ (obsW 0).fq - meanQ (obsW 0).fs) :=
  c4_loss_scaling cfgW obsW 1 0 (by decide)

/-- C6: the learning rate of every optimizer parameter group is set to
`max(lr_min, lr * lr_decay)` at the end of every iteration, unconditionally
(the annealing map is applied at every step `k`, independent of the logging
condition), and consequently after any `k ≥ 1` completed iterations every
group's rate is at least the (post-prescaling) `lr_min`. -/
theorem c6_lr_anneal_floor (cfg : LoopCfg) (obs : ℕ → IterData) (k : ℕ) :
    (trainRun cfg obs (k + 1)).lrs =
      annealLR (lrPrescale cfg).2 cfg.lr_decay (trainRun cfg obs k).lrs ∧
    (1 ≤ k → ∀ l ∈ (trainRun cfg obs k).lrs, (lrPrescale cfg).2 ≤ l) := by
  refine ⟨rfl, ?_⟩
  intro hk l hl
  match k, hk with
  | j + 1, _ =>
      have : (trainRun cfg obs (j + 1)).lrs =
          annealLR (lrPrescale cfg).2 cfg.lr_decay (trainRun cfg obs j).lrs := rfl
      rw [this, annealLR] at hl
      obtain ⟨l0, _, rfl⟩ := List.mem_map.mp hl
      exact le_max_left _ _

/-- Witness for C6 at a concrete configuration and stream, after one
iteration. -/
theorem c6_lr_anneal_floor_witness :
    (trainRun cfgW obsW 2).lrs =
      annealLR (lrPrescale cfgW).2 cfgW.lr_decay (trainRun cfgW obsW 1).lrs ∧
    (∀ l ∈ (trainRun cfgW obsW 1).lrs, (lrPrescale cfgW).2 ≤ l) :=
  ⟨(c6_lr_anneal_floor cfgW obsW 1).1,
   (c6_lr_anneal_floor cfgW obsW 1).2 (by decide)⟩

/-- C7: exactly when `optimizer_type = "sgd"` and `epsilon > 0`, both
`lr_init` and `lr_min` are multiplied once at setup by `epsilon^2 / 2`, and
the optimizer is constructed with the prescaled `lr_init`; for any other
optimizer type or `epsilon ≤ 0` neither rate is rescaled. -/
theorem c7_sgd_prescaling (cfg : LoopCfg) :
    (cfg.optimizer_type = "sgd" → 0 < cfg.epsilon →
      lrPrescale cfg =
        (cfg.lr_init * (cfg.epsilon ^ 2 / 2), cfg.lr_min * (cfg.epsilon ^ 2 / 2))) ∧
    (¬(cfg.optimizer_type = "sgd" ∧ 0 < cfg.epsilon) →
      lrPrescale cfg = (cfg.lr_init, cfg.lr_min)) ∧
    (initLoopState cfg).lrs = [(lrPrescale cfg).1] := by
  refine ⟨fun h1 h2 => ?_, fun h => ?_, rfl⟩
  · rw [lrPrescale, if_pos ⟨h1, h2⟩]
  · rw [lrPrescale, if_neg h]

/-- Witness for C7 at an SGD configuration with `epsilon > 0` and at an Adam
configuration. -/
theorem c7_sgd_prescaling_witness :
    lrPrescale cfgW =
      (cfgW.lr_init * (cfgW.epsilon ^ 2 / 2), cfgW.lr_min * (cfgW.epsilon ^ 2 / 2)) ∧
    lrPrescale cfgW2 = (cfgW2.lr_init, cfgW2.lr_min) ∧
    (initLoopState cfgW).lrs = [(lrPrescale cfgW).1] :=
  ⟨(c7_sgd_prescaling cfgW).1 rfl (by decide),
   (c7_sgd_prescaling cfgW2).2.1 (by decide),
   (c7_sgd_prescaling cfgW).2.2⟩

/-- C8: swapping the roles of the positive and negative batches negates the
loss exactly, for every energy function, pair of batches and `epsilon`. -/
theorem c8_loss_antisymm (f : Vec → ℚ) (xq xs : Batch) (eps : ℚ) :
    lossOn f xq xs eps = -lossOn f xs xq eps := by
  simp only [lossOn, computeLoss]
  by_cases h : 0 < eps
  · simp only [if_pos h]
    ring
  · simp only [if_neg h]
    ring

/-- C9: two runs of the training program with the same configuration and the
same seed produce identical diagnostic records `d_s_t_record` and
`r_s_t_record`, entry for entry, since every random draw derives from the
seeded pseudo-random stream. -/
theorem c9_seed_determinism (cfg1 cfg2 : LoopCfg) (s1 s2 n : ℕ)
    (hc : cfg1 = cfg2) (hs : s1 = s2) :
    (fullRun cfg1 s1 n).d_rec = (fullRun cfg2 s2 n).d_rec ∧
    (fullRun cfg1 s1 n).r_rec = (fullRun cfg2 s2 n).r_rec := by
  subst hc
  subst hs
  exact ⟨rfl, rfl⟩

/-- Witness for C9 at a concrete configuration, seed and run length. -/
theorem c9_seed_determinism_witness :
    (fullRun cfgW 7 2).d_rec = (fullRun cfgW 7 2).d_rec ∧
    (fullRun cfgW 7 2).r_rec = (fullRun cfgW 7 2).r_rec :=
  c9_seed_determinism cfgW cfgW 7 7 2 rfl rfl
